import Mathlib

/-!
Shallow embedding of the KirkGolfGame core: the physics stepper and
trajectory predictor (`src/services/physicsEngine.ts`), the per-frame shot
simulation loop and the game phase machine (`src/App.tsx`), with the
physics configuration of `src/constants.ts`.  JavaScript numbers are
modelled as real numbers, `Math.round` as `round` (both round half towards
positive infinity), and the tile `Map` keyed by rounded coordinates as a
function `ℤ → ℤ → Option Tile`.
-/

namespace Golf

open scoped Classical

/-- 3D vector; `y` is the vertical axis (`src/types.ts`, `Vector3`). -/
structure Vector3 where
  x : ℝ
  y : ℝ
  z : ℝ

/-- Terrain tile kinds (`src/types.ts`, `TileType`). -/
inductive TileType where
  | FAIRWAY | ROUGH | SAND | WATER | GREEN | GRAVEL | TREE | OBSTACLE | EMPTY
deriving DecidableEq

/-- One terrain tile (`src/types.ts`, `Tile`). -/
structure Tile where
  x : ℤ
  z : ℤ
  height : ℝ
  type : TileType

/-- The tile `Map<string, Tile>` keyed by `"x,z"` of rounded coordinates,
modelled as a partial function on the integer grid. -/
def TileMap : Type := ℤ → ℤ → Option Tile

/-- Physics configuration (`src/types.ts`, `PhysicsConfig`). -/
structure PhysicsConfig where
  gravity : ℝ
  dragAir : ℝ
  frictionGround : ℝ
  frictionSand : ℝ
  frictionGreen : ℝ
  frictionGravel : ℝ
  frictionRough : ℝ
  restitution : ℝ
  maxVelocity : ℝ
  minVelocityToStop : ℝ

/-- The game's configuration (`src/constants.ts`, `PHYSICS_CONFIG`). -/
def PHYSICS_CONFIG : PhysicsConfig where
  gravity := 35.0
  dragAir := 0.8
  frictionGround := 0.4
  frictionSand := 8.0
  frictionGreen := 0.15
  frictionGravel := 5.0
  frictionRough := 0.8
  restitution := 0.4
  maxVelocity := 80
  minVelocityToStop := 0.2

/-- `addVectors` of `src/services/physicsEngine.ts`. -/
def addVectors (v1 v2 : Vector3) : Vector3 :=
  ⟨v1.x + v2.x, v1.y + v2.y, v1.z + v2.z⟩

/-- `scaleVector` of `src/services/physicsEngine.ts`. -/
def scaleVector (v : Vector3) (s : ℝ) : Vector3 :=
  ⟨v.x * s, v.y * s, v.z * s⟩

/-- `magnitude` of `src/services/physicsEngine.ts`. -/
noncomputable def magnitude (v : Vector3) : ℝ :=
  Real.sqrt (v.x * v.x + v.y * v.y + v.z * v.z)

/-- `getFrictionForTile` of `src/services/physicsEngine.ts`; `none` models
the JS `undefined` argument. -/
def getFrictionForTile (tileType : Option TileType) (config : PhysicsConfig) : ℝ :=
  match tileType with
  | some TileType.SAND => config.frictionSand
  | some TileType.GREEN => config.frictionGreen
  | some TileType.ROUGH => config.frictionRough
  | some TileType.GRAVEL => config.frictionGravel
  | some TileType.FAIRWAY => config.frictionGround
  | some TileType.WATER => 0.5
  | _ => config.frictionGround

/-- Result record of `calculateNextState`: `{ pos, vel, collision? }`. -/
structure StepResult where
  pos : Vector3
  vel : Vector3
  collision : Option String

/-- Step 1 of `calculateNextState`: gravity, linear air drag, and
semi-implicit Euler integration (velocity first, then position). -/
def integrate (pos vel : Vector3) (dt : ℝ) (config : PhysicsConfig) :
    Vector3 × Vector3 :=
  let forces : Vector3 :=
    ⟨0 - vel.x * config.dragAir,
     -config.gravity - vel.y * config.dragAir,
     0 - vel.z * config.dragAir⟩
  let newVel := addVectors vel (scaleVector forces dt)
  let newPos := addVectors pos (scaleVector newVel dt)
  (newPos, newVel)

/-- The body of the obstacle scan of `calculateNextState` for one grid cell
`(cx + i, cz + j)`: TREE/OBSTACLE trunk collision with push-out and, when
the velocity moves into the obstacle, reflection scaled by restitution 0.7
and an extra 0.9 damping. -/
noncomputable def collideCell (tileMap : TileMap) (cx cz : ℤ)
    (pv : Vector3 × Vector3) (ij : ℤ × ℤ) : Vector3 × Vector3 :=
  let newPos := pv.1
  let newVel := pv.2
  match tileMap (cx + ij.1) (cz + ij.2) with
  | none => pv
  | some obs =>
    if obs.type = TileType.TREE ∨ obs.type = TileType.OBSTACLE then
      let colliderRadius : ℝ := if obs.type = TileType.TREE then 0.35 else 0.45
      let ballRadius : ℝ := 0.15
      let minDist := colliderRadius + ballRadius
      if newPos.y > obs.height + 3 then pv
      else
        let dx := newPos.x - (obs.x : ℝ)
        let dz := newPos.z - (obs.z : ℝ)
        let distSq := dx * dx + dz * dz
        if distSq < minDist * minDist then
          let dist := Real.sqrt distSq
          let nx := if dist > 0 then dx / dist else 1
          let nz := if dist > 0 then dz / dist else 0
          let pushOutDist := (minDist - dist) + 0.01
          let pos1 : Vector3 :=
            ⟨newPos.x + nx * pushOutDist, newPos.y, newPos.z + nz * pushOutDist⟩
          let dot := newVel.x * nx + newVel.z * nz
          if dot < 0 then
            let restitution : ℝ := 0.7
            let vx := (newVel.x - 2 * dot * nx) * restitution * 0.9
            let vz := (newVel.z - 2 * dot * nz) * restitution * 0.9
            (pos1, ⟨vx, newVel.y, vz⟩)
          else (pos1, newVel)
        else pv
    else pv

/-- The `(i, j)` offsets of the obstacle scan, outer loop `i` from `-2` to
`2`, inner loop `j` from `-2` to `2`. -/
def checkOffsets : List (ℤ × ℤ) :=
  ([-2, -1, 0, 1, 2] : List ℤ).flatMap fun i =>
    ([-2, -1, 0, 1, 2] : List ℤ).map fun j => (i, j)

/-- Step 2 of `calculateNextState`: the obstacle scan over the 2-cell
radius around the rounded new position, folding `collideCell` over the
cells in loop order. -/
noncomputable def collidePhase (tileMap : TileMap) (pv : Vector3 × Vector3) :
    Vector3 × Vector3 :=
  let cx := round pv.1.x
  let cz := round pv.1.z
  checkOffsets.foldl (collideCell tileMap cx cz) pv

/-- The stepper's floor height under a tile lookup: the tile height, or the
`-10` sentinel when the tile is absent. -/
def stepFloorHeight : Option Tile → ℝ
  | some t => t.height
  | none => -10

/-- The `currentTile?.height || 0` floor used by the shot loop's rest check
and by the trajectory predictor: the tile height, or `0` when absent. -/
def loopFloorHeight : Option Tile → ℝ
  | some t => t.height
  | none => 0

/-- Step 3 of `calculateNextState`: ground/terrain interaction — floor
clamp, the terminal WATER event, vertical bounce, ground friction once the
vertical velocity is zero, and the time-scaled near-ground drag while still
bouncing. -/
noncomputable def groundPhase (tileMap : TileMap) (config : PhysicsConfig)
    (dt : ℝ) (pv : Vector3 × Vector3) : StepResult :=
  let newPos := pv.1
  let newVel := pv.2
  let finalTile := tileMap (round newPos.x) (round newPos.z)
  let floorHeight := stepFloorHeight finalTile
  if newPos.y ≤ floorHeight then
    let posC : Vector3 := ⟨newPos.x, floorHeight, newPos.z⟩
    if finalTile.map Tile.type = some TileType.WATER then
      { pos := posC, vel := ⟨0, 0, 0⟩, collision := some "WATER" }
    else
      let vy := if |newVel.y| > 0.5 then -newVel.y * config.restitution else 0
      if vy = 0 then
        let mu := getFrictionForTile (finalTile.map Tile.type) config
        let frictionMag := mu * config.gravity * dt
        let hVel : Vector3 := ⟨newVel.x, 0, newVel.z⟩
        let speed := magnitude hVel
        if speed > 0 then
          if speed ≤ frictionMag then
            { pos := posC, vel := ⟨0, 0, 0⟩, collision := none }
          else
            let factor := (speed - frictionMag) / speed
            { pos := posC, vel := ⟨newVel.x * factor, 0, newVel.z * factor⟩,
              collision := none }
        else
          { pos := posC, vel := ⟨newVel.x, 0, newVel.z⟩, collision := none }
      else
        let nearGroundDrag := 1.0 * dt
        { pos := posC,
          vel := ⟨newVel.x * (1 - nearGroundDrag), vy, newVel.z * (1 - nearGroundDrag)⟩,
          collision := none }
  else
    { pos := newPos, vel := newVel, collision := none }

/-- `calculateNextState` of `src/services/physicsEngine.ts`: forces and
integration, then the obstacle scan, then ground interaction. -/
noncomputable def calculateNextState (pos vel : Vector3) (dt : ℝ)
    (config : PhysicsConfig) (tileMap : TileMap) : StepResult :=
  groundPhase tileMap config dt (collidePhase tileMap (integrate pos vel dt config))

/-- The tile map `predictTrajectory` builds from the level's tile list;
later tiles overwrite earlier ones at the same key. -/
def buildTileMap (tiles : List Tile) : TileMap :=
  tiles.foldl (fun m t => fun x z => if x = t.x ∧ z = t.z then some t else m x z)
    (fun _ _ => none)

/-- The loop of `predictTrajectory`, carrying the remaining step budget and
the loop index `i`.  Each iteration steps, then (a) on first touchdown —
stepped `y` at/below the pre-step tile's floor plus `0.05` with negative
pre-step vertical velocity — records the floor-clamped landing point and
halts; otherwise pushes the stepped point and (b) halts after it when
settled (`y` at/below that floor, `|vel.y| < 0.1`, and `i > 0`). -/
noncomputable def predictAux (config : PhysicsConfig) (dt : ℝ) (tileMap : TileMap) :
    ℕ → ℕ → Vector3 → Vector3 → List Vector3
  | 0, _, _, _ => []
  | fuel + 1, i, currentPos, currentVel =>
    let r := calculateNextState currentPos currentVel dt config tileMap
    let currentTile := tileMap (round currentPos.x) (round currentPos.z)
    let fl := loopFloorHeight currentTile
    if r.pos.y ≤ fl + 0.05 ∧ currentVel.y < 0 then
      [⟨r.pos.x, fl, r.pos.z⟩]
    else if r.pos.y ≤ fl ∧ |r.vel.y| < 0.1 ∧ 0 < i then
      [r.pos]
    else
      r.pos :: predictAux config dt tileMap fuel (i + 1) r.pos r.vel

/-- `predictTrajectory` of `src/services/physicsEngine.ts`: builds the tile
map, seeds the path with the start position and runs the prediction loop
for at most `steps` iterations. -/
noncomputable def predictTrajectory (startPos startVel : Vector3)
    (config : PhysicsConfig) (levelTiles : List Tile) (steps : ℕ) (dt : ℝ) :
    List Vector3 :=
  let tileMap := buildTileMap levelTiles
  startPos :: predictAux config dt tileMap steps 0 startPos startVel

/-- `BallState` of `src/types.ts`. -/
structure BallState where
  position : Vector3
  velocity : Vector3
  isMoving : Bool
  inHole : Bool
  lastStablePosition : Vector3

/-- Game phases (`src/types.ts`, `GamePhase`). -/
inductive GamePhase where
  | AIMING | EXECUTING | IDLE | HOLED | LEVEL_COMPLETE | OUT_OF_BOUNDS | GAME_OVER
deriving DecidableEq

/-- One iteration of the sub-step loop of `updatePhysics` in `src/App.tsx`:
the not-moving check, the void killer, one `calculateNextState` call, the
WATER stop, the rest check against the `|| 0` floor, and hole capture.
Returns the updated state and whether the loop `break`s. -/
noncomputable def subStep (tileMap : TileMap) (holePosition : Vector3)
    (config : PhysicsConfig) (subDt : ℝ) (s : BallState) : BallState × Bool :=
  if s.isMoving = false then (s, true)
  else if s.position.y < -10 then
    ({ s with isMoving := false, velocity := ⟨0, 0, 0⟩ }, true)
  else
    let r := calculateNextState s.position s.velocity subDt config tileMap
    if r.collision = some "WATER" then
      ({ s with position := r.pos, velocity := r.vel, isMoving := false }, true)
    else
      let currentTile := tileMap (round r.pos.x) (round r.pos.z)
      let speed := magnitude r.vel
      let isBasicallyStopped : Bool :=
        decide (speed < config.minVelocityToStop ∧
          |r.pos.y - loopFloorHeight currentTile| < 0.1)
      let distToHole := magnitude
        ⟨r.pos.x - holePosition.x, 0, r.pos.z - holePosition.z⟩
      let inHole : Bool :=
        if distToHole < 0.3 ∧ speed < 5 then true else s.inHole
      ({ position := if inHole then holePosition else r.pos,
         velocity := if inHole ∨ isBasicallyStopped then ⟨0, 0, 0⟩ else r.vel,
         isMoving := !isBasicallyStopped && !inHole,
         inHole := inHole,
         lastStablePosition := s.lastStablePosition }, inHole)

/-- The `SUB_STEPS` loop of `updatePhysics`: runs `n` sub-steps, stopping
early when a sub-step `break`s. -/
noncomputable def runSubSteps (tileMap : TileMap) (holePosition : Vector3)
    (config : PhysicsConfig) (subDt : ℝ) : ℕ → BallState → BallState
  | 0, s => s
  | n + 1, s =>
    let r := subStep tileMap holePosition config subDt s
    if r.2 then r.1 else runSubSteps tileMap holePosition config subDt n r.1

/-- One frame of `updatePhysics`: clamp the frame delta to `0.1`, and when
not paused and the ball is moving, run 8 sub-steps of an eighth of the
clamped delta each. -/
noncomputable def updateFrame (tileMap : TileMap) (holePosition : Vector3)
    (isPaused : Bool) (rawDt : ℝ) (ball : BallState) : BallState :=
  let dt := min rawDt 0.1
  if isPaused = false ∧ ball.isMoving = true then
    runSubSteps tileMap holePosition PHYSICS_CONFIG (dt / 8) 8 ball
  else ball

/-- `resetBall` of `src/App.tsx`: restore the checkpointed position, zero
the velocity, stop the ball, and return the phase to AIMING. -/
def resetBall (b : BallState) : BallState × GamePhase :=
  ({ b with
      position := b.lastStablePosition
      velocity := ⟨0, 0, 0⟩
      isMoving := false }, GamePhase.AIMING)

/-- The phase transition effect of `src/App.tsx`: in EXECUTING, a holed
ball completes the level; a stopped, unholed ball goes out of bounds over
an absent or WATER tile or below `y = -5`, else the game is over when no
lives remain, else back to AIMING. -/
noncomputable def phaseTransition (tileMap : TileMap) (lives : ℤ)
    (ball : BallState) (gamePhase : GamePhase) : GamePhase :=
  if gamePhase = GamePhase.EXECUTING then
    if ball.inHole = true then GamePhase.LEVEL_COMPLETE
    else if ball.isMoving = false then
      let currentTile := tileMap (round ball.position.x) (round ball.position.z)
      if currentTile = none ∨ currentTile.map Tile.type = some TileType.WATER ∨
          ball.position.y < -5 then
        GamePhase.OUT_OF_BOUNDS
      else if lives ≤ 0 then GamePhase.GAME_OVER
      else GamePhase.AIMING
    else gamePhase
  else gamePhase

/-- The fresh ball state built at level load and on restart/next-level. -/
def initialBall (start : Vector3) : BallState :=
  { position := start, velocity := ⟨0, 0, 0⟩, isMoving := false,
    inHole := false, lastStablePosition := start }

/-- The mutable session state of `App`: ball, phase, remaining lives, and
the level's hole position and tile map. -/
structure GameState where
  ball : BallState
  phase : GamePhase
  lives : ℤ
  holePos : Vector3
  tileMap : TileMap

/-- The operations of `App` that write the session state: `handleShoot`
(guarded on AIMING), one animation frame of `updatePhysics`, the phase
transition effect, the delayed `resetBall` scheduled on OUT_OF_BOUNDS, and
`handleRestart`/`handleNextLevel`. -/
inductive Step : GameState → GameState → Prop where
  | shoot (g : GameState) (v : Vector3) (h : g.phase = GamePhase.AIMING) :
      Step g { g with
                ball := { g.ball with
                           velocity := v
                           isMoving := true
                           lastStablePosition := g.ball.position }
                lives := g.lives - 1
                phase := GamePhase.EXECUTING }
  | frame (g : GameState) (paused : Bool) (rawDt : ℝ) :
      Step g { g with ball := updateFrame g.tileMap g.holePos paused rawDt g.ball }
  | phaseUpdate (g : GameState) :
      Step g { g with phase := phaseTransition g.tileMap g.lives g.ball g.phase }
  | ballReset (g : GameState) (h : g.phase = GamePhase.OUT_OF_BOUNDS) :
      Step g { g with ball := (resetBall g.ball).1, phase := (resetBall g.ball).2 }
  | levelReset (g : GameState) (tm : TileMap) (start hole : Vector3) :
      Step g { ball := initialBall start, phase := GamePhase.AIMING, lives := 5,
               holePos := hole, tileMap := tm }

/-- States reachable from a freshly loaded level by the session's
operations. -/
inductive Reachable : GameState → Prop where
  | init (tm : TileMap) (start hole : Vector3) :
      Reachable { ball := initialBall start, phase := GamePhase.AIMING, lives := 5,
                  holePos := hole, tileMap := tm }
  | step (g g' : GameState) : Reachable g → Step g g' → Reachable g'

/-! ## General lemmas -/

/-- Fixing the magnitude of a vector whose squared norm is a perfect
square. -/
lemma magnitude_eq (v : Vector3) (m : ℝ) (hm : 0 ≤ m)
    (h : v.x * v.x + v.y * v.y + v.z * v.z = m * m) : magnitude v = m := by
  rw [magnitude, h, show m * m = m ^ 2 by ring, Real.sqrt_sq hm]

/-- A sub-step on a stopped ball leaves it unchanged and breaks the loop. -/
lemma subStep_not_moving (tm : TileMap) (hole : Vector3) (config : PhysicsConfig)
    (subDt : ℝ) (s : BallState) (h : s.isMoving = false) :
    subStep tm hole config subDt s = (s, true) := by
  simp [subStep, h]

/-- The concrete all-zero configuration used by the concrete instances. -/
def cfg0 : PhysicsConfig :=
  ⟨0, 0, 0, 0, 0, 0, 0, 0, 0, 0⟩

/-- The tile map with no tiles at all. -/
def emptyTileMap : TileMap := fun _ _ => none

/-- A scan cell holding no TREE/OBSTACLE tile leaves the state alone. -/
lemma collideCell_no_obstacle (tm : TileMap) (cx cz : ℤ) (pv : Vector3 × Vector3)
    (ij : ℤ × ℤ)
    (h : ∀ t, tm (cx + ij.1) (cz + ij.2) = some t →
      t.type ≠ TileType.TREE ∧ t.type ≠ TileType.OBSTACLE) :
    collideCell tm cx cz pv ij = pv := by
  cases htile : tm (cx + ij.1) (cz + ij.2) with
  | none => simp [collideCell, htile]
  | some t =>
    have ht := h t htile
    simp [collideCell, htile, ht.1, ht.2]

/-- Folding the scan body over any cells of a TREE/OBSTACLE-free map is the
identity. -/
lemma foldl_collideCell_id (tm : TileMap) (cx cz : ℤ)
    (h : ∀ x z t, tm x z = some t →
      t.type ≠ TileType.TREE ∧ t.type ≠ TileType.OBSTACLE) :
    ∀ (l : List (ℤ × ℤ)) (pv : Vector3 × Vector3),
      l.foldl (collideCell tm cx cz) pv = pv := by
  intro l
  induction l with
  | nil => intro pv; rfl
  | cons a l ih =>
    intro pv
    rw [List.foldl_cons,
      collideCell_no_obstacle tm cx cz pv a (fun t ht => h _ _ t ht), ih]

/-- The obstacle scan does nothing over a TREE/OBSTACLE-free map. -/
lemma collidePhase_no_obstacle (tm : TileMap)
    (h : ∀ x z t, tm x z = some t →
      t.type ≠ TileType.TREE ∧ t.type ≠ TileType.OBSTACLE)
    (pv : Vector3 × Vector3) : collidePhase tm pv = pv := by
  rw [collidePhase]
  exact foldl_collideCell_id tm _ _ h checkOffsets pv

/-- The obstacle scan does nothing over the empty tile map. -/
lemma collidePhase_empty (pv : Vector3 × Vector3) :
    collidePhase emptyTileMap pv = pv :=
  collidePhase_no_obstacle emptyTileMap
    (by intro x z t ht; simp [emptyTileMap] at ht) pv

/-- A step with zero gravity, zero drag and zero step over the empty tile
map from a position above the void sentinel returns its input unchanged. -/
lemma calculateNextState_empty_dtzero (pos vel : Vector3) (hy : -10 < pos.y) :
    calculateNextState pos vel 0 cfg0 emptyTileMap =
      { pos := pos, vel := vel, collision := none } := by
  have hint : integrate pos vel 0 cfg0 = (pos, vel) := by
    simp [integrate, addVectors, scaleVector, cfg0]
  rw [calculateNextState, hint, collidePhase_empty]
  rw [groundPhase]
  simp only [emptyTileMap, stepFloorHeight]
  rw [if_neg (by simpa using not_le.mpr hy)]

/-! ## C1: hole capture -/

/-- C1.  During an EXECUTING sub-step, if after stepping the horizontal
distance from the ball to the hole center is `< 0.3` and the speed is
`< 5`, then `inHole` becomes true, the position is snapped to the hole
center, the velocity becomes `(0,0,0)`, the ball stops (`isMoving = false`)
and the sub-step loop breaks; a further sub-step on the resulting state
leaves it unchanged, so the ball stays stopped for the rest of the shot. -/
theorem holeCapture_substep (tm : TileMap) (hole : Vector3)
    (config : PhysicsConfig) (subDt : ℝ) (s : BallState) (r : StepResult)
    (hm : s.isMoving = true)
    (hy : ¬ s.position.y < -10)
    (hr : calculateNextState s.position s.velocity subDt config tm = r)
    (hw : r.collision ≠ some "WATER")
    (hdist : magnitude ⟨r.pos.x - hole.x, 0, r.pos.z - hole.z⟩ < 0.3)
    (hspeed : magnitude r.vel < 5) :
    (subStep tm hole config subDt s).1.inHole = true ∧
    (subStep tm hole config subDt s).1.position = hole ∧
    (subStep tm hole config subDt s).1.velocity = ⟨0, 0, 0⟩ ∧
    (subStep tm hole config subDt s).1.isMoving = false ∧
    (subStep tm hole config subDt s).2 = true ∧
    subStep tm hole config subDt (subStep tm hole config subDt s).1 =
      ((subStep tm hole config subDt s).1, true) := by
  have hstep : subStep tm hole config subDt s =
      ({ position := hole, velocity := ⟨0, 0, 0⟩, isMoving := false,
         inHole := true, lastStablePosition := s.lastStablePosition }, true) := by
    rw [subStep]
    rw [if_neg (by simp [hm]), if_neg hy, hr, if_neg hw]
    simp [hdist, hspeed]
  refine ⟨by rw [hstep], by rw [hstep], by rw [hstep], by rw [hstep],
    by rw [hstep], ?_⟩
  rw [hstep]
  exact subStep_not_moving _ _ _ _ _ rfl

/-- The ball state of the C1 instance: at horizontal distance `0.2` from
the hole with speed `2`. -/
def nearHoleBall : BallState :=
  { position := ⟨0.2, 1, 0⟩, velocity := ⟨0, 0, 2⟩, isMoving := true,
    inHole := false, lastStablePosition := ⟨0.2, 1, 0⟩ }

/-- C1 witness: a ball `0.2` from the hole center at speed `2` is
captured. -/
theorem holeCapture_substep_witness :
    (subStep emptyTileMap ⟨0, 0, 0⟩ cfg0 0 nearHoleBall).1.inHole = true ∧
    (subStep emptyTileMap ⟨0, 0, 0⟩ cfg0 0 nearHoleBall).1.position = ⟨0, 0, 0⟩ ∧
    (subStep emptyTileMap ⟨0, 0, 0⟩ cfg0 0 nearHoleBall).1.velocity = ⟨0, 0, 0⟩ ∧
    (subStep emptyTileMap ⟨0, 0, 0⟩ cfg0 0 nearHoleBall).1.isMoving = false ∧
    (subStep emptyTileMap ⟨0, 0, 0⟩ cfg0 0 nearHoleBall).2 = true ∧
    subStep emptyTileMap ⟨0, 0, 0⟩ cfg0 0
        (subStep emptyTileMap ⟨0, 0, 0⟩ cfg0 0 nearHoleBall).1 =
      ((subStep emptyTileMap ⟨0, 0, 0⟩ cfg0 0 nearHoleBall).1, true) := by
  have hr : calculateNextState nearHoleBall.position nearHoleBall.velocity 0
      cfg0 emptyTileMap =
      { pos := ⟨0.2, 1, 0⟩, vel := ⟨0, 0, 2⟩, collision := none } := by
    rw [show nearHoleBall.position = ⟨0.2, 1, 0⟩ from rfl,
      show nearHoleBall.velocity = ⟨0, 0, 2⟩ from rfl]
    exact calculateNextState_empty_dtzero _ _ (by norm_num)
  exact holeCapture_substep emptyTileMap ⟨0, 0, 0⟩ cfg0 0 nearHoleBall _
    rfl (by norm_num [nearHoleBall]) hr (by simp)
    (by rw [magnitude_eq _ 0.2 (by norm_num) (by norm_num)]; norm_num)
    (by rw [magnitude_eq _ 2 (by norm_num) (by norm_num)]; norm_num)

/-! ## C2: phase machine stopped branch -/

/-- C2.  With the phase EXECUTING, the ball stopped and not holed: the next
phase is OUT_OF_BOUNDS exactly when the tile under the ball is absent or
WATER or the ball's `y < -5`; otherwise it is GAME_OVER exactly when
`lives ≤ 0`, and AIMING when `lives > 0`; and the delayed `resetBall`
restores the checkpointed position with zero velocity and returns the phase
to AIMING. -/
theorem phase_stopped_branch (tm : TileMap) (lives : ℤ) (b : BallState)
    (hm : b.isMoving = false) (hh : b.inHole = false) :
    (phaseTransition tm lives b GamePhase.EXECUTING = GamePhase.OUT_OF_BOUNDS ↔
      (tm (round b.position.x) (round b.position.z) = none ∨
        (tm (round b.position.x) (round b.position.z)).map Tile.type =
          some TileType.WATER ∨
        b.position.y < -5)) ∧
    (¬ (tm (round b.position.x) (round b.position.z) = none ∨
        (tm (round b.position.x) (round b.position.z)).map Tile.type =
          some TileType.WATER ∨
        b.position.y < -5) →
      (phaseTransition tm lives b GamePhase.EXECUTING = GamePhase.GAME_OVER ↔
        lives ≤ 0)) ∧
    (¬ (tm (round b.position.x) (round b.position.z) = none ∨
        (tm (round b.position.x) (round b.position.z)).map Tile.type =
          some TileType.WATER ∨
        b.position.y < -5) →
      0 < lives →
      phaseTransition tm lives b GamePhase.EXECUTING = GamePhase.AIMING) ∧
    resetBall b =
      ({ b with
          position := b.lastStablePosition
          velocity := ⟨0, 0, 0⟩
          isMoving := false }, GamePhase.AIMING) := by
  simp only [phaseTransition]
  rw [if_pos trivial, if_neg (by simp [hh]), if_pos hm]
  refine ⟨?_, ?_, ?_, rfl⟩
  · by_cases hc : tm (round b.position.x) (round b.position.z) = none ∨
        (tm (round b.position.x) (round b.position.z)).map Tile.type =
          some TileType.WATER ∨
        b.position.y < -5
    · rw [if_pos hc]
      exact iff_of_true rfl hc
    · rw [if_neg hc]
      refine iff_of_false (fun h => ?_) hc
      by_cases hl : lives ≤ 0
      · rw [if_pos hl] at h
        exact absurd h (by decide)
      · rw [if_neg hl] at h
        exact absurd h (by decide)
  · intro hnc
    rw [if_neg hnc]
    by_cases hl : lives ≤ 0
    · rw [if_pos hl]
      exact iff_of_true rfl hl
    · rw [if_neg hl]
      exact iff_of_false (by decide) hl
  · intro hnc hl
    rw [if_neg hnc, if_neg (not_le.mpr hl)]

/-- C2 witness: a fresh stopped ball over the empty tile map with no lives
left; the absent tile drives the OUT_OF_BOUNDS branch. -/
theorem phase_stopped_branch_witness :
    (phaseTransition emptyTileMap 0 (initialBall ⟨0, 0, 0⟩) GamePhase.EXECUTING =
        GamePhase.OUT_OF_BOUNDS ↔
      (emptyTileMap (round (initialBall ⟨0, 0, 0⟩).position.x)
          (round (initialBall ⟨0, 0, 0⟩).position.z) = none ∨
        (emptyTileMap (round (initialBall ⟨0, 0, 0⟩).position.x)
            (round (initialBall ⟨0, 0, 0⟩).position.z)).map Tile.type =
          some TileType.WATER ∨
        (initialBall ⟨0, 0, 0⟩).position.y < -5)) ∧
    (¬ (emptyTileMap (round (initialBall ⟨0, 0, 0⟩).position.x)
          (round (initialBall ⟨0, 0, 0⟩).position.z) = none ∨
        (emptyTileMap (round (initialBall ⟨0, 0, 0⟩).position.x)
            (round (initialBall ⟨0, 0, 0⟩).position.z)).map Tile.type =
          some TileType.WATER ∨
        (initialBall ⟨0, 0, 0⟩).position.y < -5) →
      (phaseTransition emptyTileMap 0 (initialBall ⟨0, 0, 0⟩) GamePhase.EXECUTING =
          GamePhase.GAME_OVER ↔ (0 : ℤ) ≤ 0)) ∧
    (¬ (emptyTileMap (round (initialBall ⟨0, 0, 0⟩).position.x)
          (round (initialBall ⟨0, 0, 0⟩).position.z) = none ∨
        (emptyTileMap (round (initialBall ⟨0, 0, 0⟩).position.x)
            (round (initialBall ⟨0, 0, 0⟩).position.z)).map Tile.type =
          some TileType.WATER ∨
        (initialBall ⟨0, 0, 0⟩).position.y < -5) →
      (0 : ℤ) < 0 →
      phaseTransition emptyTileMap 0 (initialBall ⟨0, 0, 0⟩) GamePhase.EXECUTING =
        GamePhase.AIMING) ∧
    resetBall (initialBall ⟨0, 0, 0⟩) =
      ({ initialBall ⟨0, 0, 0⟩ with
          position := (initialBall ⟨0, 0, 0⟩).lastStablePosition
          velocity := ⟨0, 0, 0⟩
          isMoving := false }, GamePhase.AIMING) :=
  phase_stopped_branch emptyTileMap 0 (initialBall ⟨0, 0, 0⟩) rfl rfl

/-! ## C3: predictor first-touchdown stop -/

/-- C3.  At any iteration of the prediction loop, if the stepped position's
`y` is at or below the floor height of the tile under the pre-step position
while the pre-step vertical velocity was negative, the loop records the
floor-clamped landing point as the only remaining element of the sequence
and halts. -/
theorem predict_first_touchdown (config : PhysicsConfig) (dt : ℝ)
    (tileMap : TileMap) (fuel i : ℕ) (pos vel : Vector3)
    (hy : (calculateNextState pos vel dt config tileMap).pos.y ≤
      loopFloorHeight (tileMap (round pos.x) (round pos.z)))
    (hv : vel.y < 0) :
    predictAux config dt tileMap (fuel + 1) i pos vel =
      [⟨(calculateNextState pos vel dt config tileMap).pos.x,
        loopFloorHeight (tileMap (round pos.x) (round pos.z)),
        (calculateNextState pos vel dt config tileMap).pos.z⟩] := by
  simp only [predictAux]
  rw [if_pos ⟨hy.trans (le_add_of_nonneg_right (by norm_num)), hv⟩]

/-- C3 witness: a zero-configuration step from below the (absent-tile)
floor with downward velocity lands and halts at the clamped point. -/
theorem predict_first_touchdown_witness :
    predictAux cfg0 0 emptyTileMap 1 0 ⟨0, -0.5, 0⟩ ⟨0, -1, 0⟩ =
      [⟨0, 0, 0⟩] := by
  have hstep : calculateNextState ⟨0, -0.5, 0⟩ ⟨0, -1, 0⟩ 0 cfg0 emptyTileMap =
      { pos := ⟨0, -0.5, 0⟩, vel := ⟨0, -1, 0⟩, collision := none } :=
    calculateNextState_empty_dtzero _ _ (by norm_num)
  have h := predict_first_touchdown cfg0 0 emptyTileMap 0 0 ⟨0, -0.5, 0⟩
    ⟨0, -1, 0⟩ (by rw [hstep]; simp [emptyTileMap, loopFloorHeight]; norm_num)
    (by norm_num)
  rw [hstep] at h
  simpa [emptyTileMap, loopFloorHeight] using h

/-! ## C4: water is terminal in a step -/

/-- C4.  If, after integration and the obstacle scan, the position is at or
below the floor and the tile under it is WATER, the step returns the WATER
event with the position clamped to the floor and the velocity zeroed; the
shot loop then stops the ball (`isMoving = false`) and breaks out of the
remaining sub-steps of the frame. -/
theorem water_terminal (pos vel : Vector3) (dt : ℝ) (config : PhysicsConfig)
    (tm : TileMap) (hole : Vector3) (s : BallState) (p1 v1 : Vector3)
    (hpv : collidePhase tm (integrate pos vel dt config) = (p1, v1))
    (hfloor : p1.y ≤ stepFloorHeight (tm (round p1.x) (round p1.z)))
    (hwater : (tm (round p1.x) (round p1.z)).map Tile.type =
      some TileType.WATER)
    (hsp : s.position = pos) (hsv : s.velocity = vel)
    (hm : s.isMoving = true) (hy : ¬ s.position.y < -10) :
    calculateNextState pos vel dt config tm =
      { pos := ⟨p1.x, stepFloorHeight (tm (round p1.x) (round p1.z)), p1.z⟩,
        vel := ⟨0, 0, 0⟩, collision := some "WATER" } ∧
    subStep tm hole config dt s =
      ({ s with
          position := ⟨p1.x, stepFloorHeight (tm (round p1.x) (round p1.z)), p1.z⟩
          velocity := ⟨0, 0, 0⟩
          isMoving := false }, true) := by
  have hcalc : calculateNextState pos vel dt config tm =
      { pos := ⟨p1.x, stepFloorHeight (tm (round p1.x) (round p1.z)), p1.z⟩,
        vel := ⟨0, 0, 0⟩, collision := some "WATER" } := by
    rw [calculateNextState, hpv]
    simp only [groundPhase]
    rw [if_pos hfloor, if_pos hwater]
  refine ⟨hcalc, ?_⟩
  simp only [subStep]
  rw [if_neg (by simp [hm]), if_neg hy, hsp, hsv, hcalc]
  rw [if_pos rfl]

/-- An all-water level at height `0`. -/
def lakeTileMap : TileMap := fun x z => some ⟨x, z, 0, TileType.WATER⟩

/-- The lake holds no obstacles. -/
lemma lakeTileMap_no_obstacle : ∀ x z t, lakeTileMap x z = some t →
    t.type ≠ TileType.TREE ∧ t.type ≠ TileType.OBSTACLE := by
  intro x z t ht
  simp only [lakeTileMap, Option.some.injEq] at ht
  rw [← ht]
  exact ⟨by simp, by simp⟩

/-- C4 witness: a moving ball whose step lands at or below an all-water
floor gets the WATER event, a zero velocity and a stopped shot loop. -/
theorem water_terminal_witness :
    calculateNextState ⟨0, -0.5, 0⟩ ⟨0, 0, 0⟩ 0 cfg0 lakeTileMap =
      { pos := ⟨(0 : ℝ),
          stepFloorHeight (lakeTileMap (round ((0 : ℝ))) (round ((0 : ℝ)))),
          (0 : ℝ)⟩,
        vel := ⟨0, 0, 0⟩, collision := some "WATER" } ∧
    subStep lakeTileMap ⟨9, 0, 0⟩ cfg0 0
        { position := ⟨0, -0.5, 0⟩, velocity := ⟨0, 0, 0⟩, isMoving := true,
          inHole := false, lastStablePosition := ⟨0, -0.5, 0⟩ } =
      ({ position := ⟨(0 : ℝ),
            stepFloorHeight (lakeTileMap (round ((0 : ℝ))) (round ((0 : ℝ)))),
            (0 : ℝ)⟩,
          velocity := ⟨0, 0, 0⟩, isMoving := false, inHole := false,
          lastStablePosition := ⟨0, -0.5, 0⟩ }, true) :=
  water_terminal ⟨0, -0.5, 0⟩ ⟨0, 0, 0⟩ 0 cfg0 lakeTileMap ⟨9, 0, 0⟩
    { position := ⟨0, -0.5, 0⟩, velocity := ⟨0, 0, 0⟩, isMoving := true,
      inHole := false, lastStablePosition := ⟨0, -0.5, 0⟩ }
    ⟨0, -0.5, 0⟩ ⟨0, 0, 0⟩
    (by
      have hint : integrate ⟨0, -0.5, 0⟩ ⟨0, 0, 0⟩ 0 cfg0 =
          ((⟨0, -0.5, 0⟩ : Vector3), (⟨0, 0, 0⟩ : Vector3)) := by
        norm_num [integrate, addVectors, scaleVector, cfg0]
      rw [hint, collidePhase_no_obstacle lakeTileMap lakeTileMap_no_obstacle])
    (by norm_num [lakeTileMap, stepFloorHeight])
    (by norm_num [lakeTileMap])
    rfl rfl rfl (by norm_num)

/-! ## C5: BallState invariant -/

/-- The per-ball part of the invariant: a stopped ball has zero velocity,
and a holed ball sits at the hole center with zero velocity, stopped. -/
def BallInv (hole : Vector3) (b : BallState) : Prop :=
  (b.isMoving = false → b.velocity = ⟨0, 0, 0⟩) ∧
  (b.inHole = true → b.position = hole ∧ b.velocity = ⟨0, 0, 0⟩ ∧
    b.isMoving = false)

/-- A step that reports a collision event zeroes the velocity (only the
WATER branch sets the event). -/
lemma calculateNextState_collision_vel (pos vel : Vector3) (dt : ℝ)
    (config : PhysicsConfig) (tm : TileMap) (c : String)
    (h : (calculateNextState pos vel dt config tm).collision = some c) :
    (calculateNextState pos vel dt config tm).vel = ⟨0, 0, 0⟩ := by
  rw [calculateNextState] at h ⊢
  generalize collidePhase tm (integrate pos vel dt config) = pv at h ⊢
  simp only [groundPhase] at h ⊢
  split_ifs at h ⊢
  all_goals simp_all

/-- A sub-step preserves the per-ball invariant. -/
lemma subStep_ballInv (tm : TileMap) (hole : Vector3) (config : PhysicsConfig)
    (dt : ℝ) (b : BallState) (h : BallInv hole b) :
    BallInv hole (subStep tm hole config dt b).1 := by
  obtain ⟨h1, h2⟩ := h
  by_cases hm : b.isMoving = false
  · rw [subStep_not_moving tm hole config dt b hm]
    exact ⟨h1, h2⟩
  · have hm' : b.isMoving = true := by
      revert hm; cases b.isMoving <;> simp
    have hh : b.inHole = false := by
      cases hin : b.inHole
      · rfl
      · exact absurd ((h2 hin).2.2) (by simp [hm'])
    by_cases hy : b.position.y < -10
    · rw [subStep, if_neg (by simp [hm']), if_pos hy]
      exact ⟨fun _ => rfl, fun hin => absurd hin (by simp [hh])⟩
    · by_cases hw : (calculateNextState b.position b.velocity dt config tm).collision
          = some "WATER"
      · rw [subStep, if_neg (by simp [hm']), if_neg hy]
        have hv := calculateNextState_collision_vel b.position b.velocity dt
          config tm "WATER" hw
        simp only []
        rw [if_pos hw]
        exact ⟨fun _ => hv, fun hin => absurd hin (by simp [hh])⟩
      · simp only [subStep]
        rw [if_neg (by simp [hm']), if_neg hy, if_neg hw]
        set r := calculateNextState b.position b.velocity dt config tm with hrdef
        by_cases hP : magnitude ⟨r.pos.x - hole.x, 0, r.pos.z - hole.z⟩ < 0.3 ∧
            magnitude r.vel < 5
        · simp [BallInv, hP, hh]
        · by_cases hst : magnitude r.vel < config.minVelocityToStop ∧
              |r.pos.y - loopFloorHeight (tm (round r.pos.x) (round r.pos.z))| < 0.1
          · simp [BallInv, hP, hh, hst]
          · simp [BallInv, hP, hh, hst]

/-- The sub-step loop preserves the per-ball invariant. -/
lemma runSubSteps_ballInv (tm : TileMap) (hole : Vector3)
    (config : PhysicsConfig) (dt : ℝ) :
    ∀ (n : ℕ) (b : BallState), BallInv hole b →
      BallInv hole (runSubSteps tm hole config dt n b) := by
  intro n
  induction n with
  | zero => intro b hb; exact hb
  | succ n ih =>
    intro b hb
    rw [runSubSteps]
    by_cases hbrk : (subStep tm hole config dt b).2 = true
    · rw [if_pos hbrk]
      exact subStep_ballInv tm hole config dt b hb
    · rw [if_neg hbrk]
      exact ih _ (subStep_ballInv tm hole config dt b hb)

/-- One frame preserves the per-ball invariant. -/
lemma updateFrame_ballInv (tm : TileMap) (hole : Vector3) (paused : Bool)
    (rawDt : ℝ) (b : BallState) (h : BallInv hole b) :
    BallInv hole (updateFrame tm hole paused rawDt b) := by
  rw [updateFrame]
  by_cases hc : paused = false ∧ b.isMoving = true
  · rw [if_pos hc]
    exact runSubSteps_ballInv tm hole PHYSICS_CONFIG _ 8 b h
  · rw [if_neg hc]
    exact h

/-- A frame does not touch a stopped ball. -/
lemma updateFrame_not_moving (tm : TileMap) (hole : Vector3) (paused : Bool)
    (rawDt : ℝ) (b : BallState) (h : b.isMoving = false) :
    updateFrame tm hole paused rawDt b = b := by
  rw [updateFrame, if_neg]
  rintro ⟨-, hmv⟩
  rw [h] at hmv
  exact Bool.false_ne_true hmv

/-- The inductive invariant of the session: the per-ball invariant, and the
ball is stopped and unholed while AIMING or OUT_OF_BOUNDS. -/
def Inv (g : GameState) : Prop :=
  BallInv g.holePos g.ball ∧
  (g.phase = GamePhase.AIMING → g.ball.isMoving = false ∧ g.ball.inHole = false) ∧
  (g.phase = GamePhase.OUT_OF_BOUNDS →
    g.ball.isMoving = false ∧ g.ball.inHole = false)

/-- Every session operation preserves the invariant. -/
lemma step_inv (g g' : GameState) (hg : Inv g) (hs : Step g g') : Inv g' := by
  obtain ⟨⟨h1, h2⟩, h3, h4⟩ := hg
  cases hs with
  | shoot v h =>
    have hh : g.ball.inHole = false := (h3 h).2
    refine ⟨⟨fun hmv => absurd hmv (by simp), fun hin => absurd hin (by simp [hh])⟩,
      fun hp => absurd hp (by simp), fun hp => absurd hp (by simp)⟩
  | frame paused rawDt =>
    refine ⟨updateFrame_ballInv _ _ _ _ _ ⟨h1, h2⟩, fun hp => ?_, fun hp => ?_⟩
    · have hb := h3 hp
      rw [updateFrame_not_moving _ _ _ _ _ hb.1]
      exact hb
    · have hb := h4 hp
      rw [updateFrame_not_moving _ _ _ _ _ hb.1]
      exact hb
  | phaseUpdate =>
    have hnothole : g.ball.inHole ≠ true → g.ball.inHole = false := by
      cases g.ball.inHole <;> simp
    refine ⟨⟨h1, h2⟩, fun hp => ?_, fun hp => ?_⟩ <;>
    · simp only [phaseTransition] at hp
      split_ifs at hp with hex hin hmv hoob hlv
      all_goals first
        | (exact absurd hp (by decide))
        | (exact ⟨hmv, hnothole hin⟩)
        | (rw [hex] at hp; exact absurd hp (by decide))
        | (exact h3 hp)
        | (exact h4 hp)
  | ballReset h =>
    have hb := h4 h
    exact ⟨⟨fun _ => rfl, fun hin => absurd hin (by simp [resetBall, hb.2])⟩,
      fun _ => ⟨rfl, by simp [resetBall, hb.2]⟩,
      fun hp => absurd hp (by simp [resetBall])⟩
  | levelReset tm start hole =>
    exact ⟨⟨fun _ => rfl, fun hin => absurd hin (by simp [initialBall])⟩,
      fun _ => ⟨rfl, rfl⟩, fun hp => absurd hp (by simp)⟩

/-- Every reachable session state satisfies the invariant. -/
lemma reachable_inv (g : GameState) (h : Reachable g) : Inv g := by
  induction h with
  | init tm start hole =>
    exact ⟨⟨fun _ => rfl, fun hin => absurd hin (by simp [initialBall])⟩,
      fun _ => ⟨rfl, rfl⟩, fun hp => absurd hp (by simp)⟩
  | step g g' _ hs ih => exact step_inv g g' ih hs

/-- C5.  In every state reachable by the game's operations, a stopped ball
(`isMoving = false`) has zero velocity, and a holed ball (`inHole = true`)
sits at the hole center with zero velocity. -/
theorem ballState_invariant (g : GameState) (h : Reachable g) :
    (g.ball.isMoving = false → g.ball.velocity = ⟨0, 0, 0⟩) ∧
    (g.ball.inHole = true →
      g.ball.position = g.holePos ∧ g.ball.velocity = ⟨0, 0, 0⟩) := by
  obtain ⟨⟨h1, h2⟩, -, -⟩ := reachable_inv g h
  exact ⟨h1, fun hin => ⟨(h2 hin).1, (h2 hin).2.1⟩⟩

/-- C5 witness: the freshly loaded level over the empty map. -/
theorem ballState_invariant_witness :
    ((GameState.mk (initialBall ⟨0, 0, 0⟩) GamePhase.AIMING 5 ⟨1, 0, 0⟩
        emptyTileMap).ball.isMoving = false →
      (GameState.mk (initialBall ⟨0, 0, 0⟩) GamePhase.AIMING 5 ⟨1, 0, 0⟩
        emptyTileMap).ball.velocity = ⟨0, 0, 0⟩) ∧
    ((GameState.mk (initialBall ⟨0, 0, 0⟩) GamePhase.AIMING 5 ⟨1, 0, 0⟩
        emptyTileMap).ball.inHole = true →
      (GameState.mk (initialBall ⟨0, 0, 0⟩) GamePhase.AIMING 5 ⟨1, 0, 0⟩
          emptyTileMap).ball.position =
        (GameState.mk (initialBall ⟨0, 0, 0⟩) GamePhase.AIMING 5 ⟨1, 0, 0⟩
          emptyTileMap).holePos ∧
      (GameState.mk (initialBall ⟨0, 0, 0⟩) GamePhase.AIMING 5 ⟨1, 0, 0⟩
        emptyTileMap).ball.velocity = ⟨0, 0, 0⟩) :=
  ballState_invariant _ (Reachable.init emptyTileMap ⟨0, 0, 0⟩ ⟨1, 0, 0⟩)

/-! ## C6: friction never adds energy -/

/-- The horizontal speed of a velocity, as the code computes it:
`magnitude` of the vector with the vertical component zeroed. -/
noncomputable def horizontalSpeed (v : Vector3) : ℝ :=
  magnitude ⟨v.x, 0, v.z⟩

/-- Scaling both horizontal components scales the horizontal speed by the
absolute factor. -/
lemma horizontalSpeed_scale (a c f y y' : ℝ) :
    horizontalSpeed ⟨a * f, y, c * f⟩ = |f| * horizontalSpeed ⟨a, y', c⟩ := by
  simp only [horizontalSpeed, magnitude]
  rw [show a * f * (a * f) + 0 * 0 + c * f * (c * f) =
    f ^ 2 * (a * a + 0 * 0 + c * c) by ring]
  rw [Real.sqrt_mul (by positivity), Real.sqrt_sq_eq_abs]

/-- C6 (amended).  For a step whose ground branch applies (position at or
below the floor, non-WATER tile), with `0 ≤ dt ≤ 2` and a nonnegative
friction deceleration `mu * gravity * dt` — as holds for every valid
configuration and every time step the game passes — the horizontal speed
after the ground-friction (or near-ground drag) update is at most the
horizontal speed before it. -/
theorem friction_no_speed_gain (tm : TileMap) (config : PhysicsConfig)
    (dt : ℝ) (p v : Vector3)
    (hfloor : p.y ≤ stepFloorHeight (tm (round p.x) (round p.z)))
    (hnw : (tm (round p.x) (round p.z)).map Tile.type ≠ some TileType.WATER)
    (hdt0 : 0 ≤ dt) (hdt2 : dt ≤ 2)
    (hfric : 0 ≤ getFrictionForTile ((tm (round p.x) (round p.z)).map Tile.type)
      config * config.gravity * dt) :
    horizontalSpeed (groundPhase tm config dt (p, v)).vel ≤ horizontalSpeed v := by
  have hs_nonneg : 0 ≤ horizontalSpeed v := Real.sqrt_nonneg _
  simp only [groundPhase]
  rw [if_pos hfloor, if_neg hnw]
  by_cases hvy : (if |v.y| > (0.5 : ℝ) then -v.y * config.restitution else 0) = 0
  · rw [if_pos hvy]
    by_cases hs0 : magnitude ⟨v.x, 0, v.z⟩ > 0
    · rw [if_pos hs0]
      by_cases hsf : magnitude ⟨v.x, 0, v.z⟩ ≤
          getFrictionForTile ((tm (round p.x) (round p.z)).map Tile.type) config *
            config.gravity * dt
      · rw [if_pos hsf]
        simp only [horizontalSpeed, magnitude]
        rw [show (0 : ℝ) * 0 + 0 * 0 + 0 * 0 = 0 by ring, Real.sqrt_zero]
        exact Real.sqrt_nonneg _
      · rw [if_neg hsf]
        simp only [StepResult.vel]
        rw [show horizontalSpeed
            ⟨v.x * ((magnitude ⟨v.x, 0, v.z⟩ -
                getFrictionForTile ((tm (round p.x) (round p.z)).map Tile.type)
                  config * config.gravity * dt) / magnitude ⟨v.x, 0, v.z⟩), 0,
              v.z * ((magnitude ⟨v.x, 0, v.z⟩ -
                getFrictionForTile ((tm (round p.x) (round p.z)).map Tile.type)
                  config * config.gravity * dt) / magnitude ⟨v.x, 0, v.z⟩)⟩ =
            |(magnitude ⟨v.x, 0, v.z⟩ -
                getFrictionForTile ((tm (round p.x) (round p.z)).map Tile.type)
                  config * config.gravity * dt) / magnitude ⟨v.x, 0, v.z⟩| *
              horizontalSpeed v from horizontalSpeed_scale _ _ _ _ _]
        set fm := getFrictionForTile ((tm (round p.x) (round p.z)).map Tile.type)
          config * config.gravity * dt with hfm
        set sp := magnitude ⟨v.x, 0, v.z⟩ with hsp
        have hspv : horizontalSpeed v = sp := rfl
        push_neg at hsf
        have hfac : |(sp - fm) / sp| = (sp - fm) / sp :=
          abs_of_nonneg (div_nonneg (by linarith) (le_of_lt hs0))
        rw [hspv, hfac, div_mul_cancel₀ _ (ne_of_gt hs0)]
        linarith
    · rw [if_neg hs0]
      simp only [StepResult.vel]
      exact le_of_eq rfl
  · rw [if_neg hvy]
    simp only [StepResult.vel]
    rw [show horizontalSpeed
        ⟨v.x * (1 - 1.0 * dt),
          (if |v.y| > (0.5 : ℝ) then -v.y * config.restitution else 0),
          v.z * (1 - 1.0 * dt)⟩ =
        |1 - 1.0 * dt| * horizontalSpeed v from horizontalSpeed_scale _ _ _ _ _]
    have h1 : |1 - 1.0 * dt| ≤ 1 := by
      rw [abs_le]
      constructor <;> nlinarith
    nlinarith [abs_nonneg (1 - 1.0 * dt)]

/-- C6 witness: a resting state over the void floor with the zero
configuration and `dt = 1`. -/
theorem friction_no_speed_gain_witness :
    horizontalSpeed (groundPhase emptyTileMap cfg0 1 (⟨0, -11, 0⟩, ⟨0, 0, 0⟩)).vel ≤
      horizontalSpeed ⟨0, 0, 0⟩ :=
  friction_no_speed_gain emptyTileMap cfg0 1 ⟨0, -11, 0⟩ ⟨0, 0, 0⟩
    (by norm_num [emptyTileMap, stepFloorHeight])
    (by simp [emptyTileMap])
    (by norm_num) (by norm_num)
    (by norm_num [emptyTileMap, getFrictionForTile, cfg0])

/-- A frictionless, dragless configuration with restitution `1`. -/
def cfgCE : PhysicsConfig :=
  ⟨0, 0, 0, 0, 0, 0, 0, 1, 0, 0⟩

/-- One FAIRWAY tile at `(3, 0)`, height `0`. -/
def fairwayTile3 : TileMap :=
  fun x z => if x = 3 ∧ z = 0 then some ⟨3, 0, 0, TileType.FAIRWAY⟩ else none

/-- The single-tile fairway holds no obstacles. -/
lemma fairwayTile3_no_obstacle : ∀ x z t, fairwayTile3 x z = some t →
    t.type ≠ TileType.TREE ∧ t.type ≠ TileType.OBSTACLE := by
  intro x z t ht
  simp only [fairwayTile3] at ht
  split_ifs at ht
  cases ht
  exact ⟨by simp, by simp⟩

/-- C6 counterexample: with `dt = 3`, from `(0, 0.5, 0)` at velocity
`(1, -1, 0)` over the single fairway tile, the ground branch applies (the
stepped point is below the floor of a non-WATER tile) and yet the
near-ground drag update doubles the horizontal speed — the claim's
universal quantification over all step inputs fails. -/
theorem friction_speed_gain_cex :
    (collidePhase fairwayTile3 (integrate ⟨0, 0.5, 0⟩ ⟨1, -1, 0⟩ 3 cfgCE)).1.y ≤
      stepFloorHeight (fairwayTile3
        (round (collidePhase fairwayTile3
          (integrate ⟨0, 0.5, 0⟩ ⟨1, -1, 0⟩ 3 cfgCE)).1.x)
        (round (collidePhase fairwayTile3
          (integrate ⟨0, 0.5, 0⟩ ⟨1, -1, 0⟩ 3 cfgCE)).1.z)) ∧
    (fairwayTile3
        (round (collidePhase fairwayTile3
          (integrate ⟨0, 0.5, 0⟩ ⟨1, -1, 0⟩ 3 cfgCE)).1.x)
        (round (collidePhase fairwayTile3
          (integrate ⟨0, 0.5, 0⟩ ⟨1, -1, 0⟩ 3 cfgCE)).1.z)).map Tile.type ≠
      some TileType.WATER ∧
    horizontalSpeed (calculateNextState ⟨0, 0.5, 0⟩ ⟨1, -1, 0⟩ 3 cfgCE
        fairwayTile3).vel >
      horizontalSpeed (collidePhase fairwayTile3
        (integrate ⟨0, 0.5, 0⟩ ⟨1, -1, 0⟩ 3 cfgCE)).2 := by
  have hint : integrate ⟨0, 0.5, 0⟩ ⟨1, -1, 0⟩ 3 cfgCE =
      ((⟨3, -2.5, 0⟩ : Vector3), (⟨1, -1, 0⟩ : Vector3)) := by
    norm_num [integrate, addVectors, scaleVector, cfgCE]
  have hpv : collidePhase fairwayTile3 (integrate ⟨0, 0.5, 0⟩ ⟨1, -1, 0⟩ 3 cfgCE) =
      ((⟨3, -2.5, 0⟩ : Vector3), (⟨1, -1, 0⟩ : Vector3)) := by
    rw [hint, collidePhase_no_obstacle fairwayTile3 fairwayTile3_no_obstacle]
  have htile : fairwayTile3 (round ((3 : ℝ))) (round ((0 : ℝ))) =
      some ⟨3, 0, 0, TileType.FAIRWAY⟩ := by
    norm_num [fairwayTile3]
  have hcalc : calculateNextState ⟨0, 0.5, 0⟩ ⟨1, -1, 0⟩ 3 cfgCE fairwayTile3 =
      { pos := ⟨3, 0, 0⟩, vel := ⟨-2, 1, 0⟩, collision := none } := by
    rw [calculateNextState, hpv]
    simp only [groundPhase]
    rw [htile]
    simp only [stepFloorHeight, Option.map_some]
    rw [if_pos (by norm_num), if_neg (by simp),
      if_neg (by rw [if_pos (by rw [abs_of_nonpos (by norm_num)]; norm_num)]
                 norm_num [cfgCE])]
    rw [if_pos (by rw [abs_of_nonpos (by norm_num)]; norm_num)]
    norm_num [cfgCE]
  refine ⟨?_, ?_, ?_⟩
  · rw [hpv]
    simp only []
    rw [htile]
    norm_num [stepFloorHeight]
  · rw [hpv]
    simp only []
    rw [htile]
    simp
  · rw [hcalc, hpv]
    simp only [StepResult.vel]
    rw [show horizontalSpeed ⟨-2, 1, 0⟩ = 2 from
      magnitude_eq _ 2 (by norm_num) (by norm_num)]
    rw [show horizontalSpeed ⟨1, -1, 0⟩ = 1 from
      magnitude_eq _ 1 (by norm_num) (by norm_num)]
    norm_num

/-! ## C7: Scenario A, integration order -/

/-- A flat FAIRWAY plane at height `0`. -/
def flatFairway : TileMap := fun x z => some ⟨x, z, 0, TileType.FAIRWAY⟩

/-- The flat fairway holds no obstacles. -/
lemma flatFairway_no_obstacle : ∀ x z t, flatFairway x z = some t →
    t.type ≠ TileType.TREE ∧ t.type ≠ TileType.OBSTACLE := by
  intro x z t ht
  simp only [flatFairway, Option.some.injEq] at ht
  rw [← ht]
  exact ⟨by simp, by simp⟩

/-- C7.  One step from rest at `(0, 0.15, 0)` over flat FAIRWAY at height
`0` with the game's configuration (`gravity = 35`) and `dt = 1/60`:
semi-implicit Euler updates the velocity first, so the returned vertical
velocity is already negative and the returned height has dropped below
`0.15`. -/
theorem scenario_a_step :
    (calculateNextState ⟨0, 0.15, 0⟩ ⟨0, 0, 0⟩ (1 / 60) PHYSICS_CONFIG
      flatFairway).vel.y < 0 ∧
    (calculateNextState ⟨0, 0.15, 0⟩ ⟨0, 0, 0⟩ (1 / 60) PHYSICS_CONFIG
      flatFairway).pos.y < 0.15 := by
  have hint : integrate ⟨0, 0.15, 0⟩ ⟨0, 0, 0⟩ (1 / 60) PHYSICS_CONFIG =
      ((⟨0, 101 / 720, 0⟩ : Vector3), (⟨0, -7 / 12, 0⟩ : Vector3)) := by
    norm_num [integrate, addVectors, scaleVector, PHYSICS_CONFIG]
  have hcalc : calculateNextState ⟨0, 0.15, 0⟩ ⟨0, 0, 0⟩ (1 / 60) PHYSICS_CONFIG
      flatFairway =
      { pos := ⟨0, 101 / 720, 0⟩, vel := ⟨0, -7 / 12, 0⟩, collision := none } := by
    rw [calculateNextState, hint,
      collidePhase_no_obstacle flatFairway flatFairway_no_obstacle]
    simp only [groundPhase]
    rw [if_neg (by norm_num [flatFairway, stepFloorHeight])]
  rw [hcalc]
  norm_num

/-! ## C8: obstacle bounce -/

/-- Reflecting about a unit normal and scaling by `0.7 * 0.9` sends the
normal component of the velocity to `-(0.7 * 0.9)` times itself. -/
lemma reflect_dot (vx vz nx nz : ℝ) (hunit : nx * nx + nz * nz = 1) :
    (vx - 2 * (vx * nx + vz * nz) * nx) * 0.7 * 0.9 * nx +
      (vz - 2 * (vx * nx + vz * nz) * nz) * 0.7 * 0.9 * nz =
    -(0.7 * 0.9) * (vx * nx + vz * nz) := by
  linear_combination (-(1.26) * (vx * nx + vz * nz)) * hunit

/-- The collision response when it fires with the velocity moving into the
obstacle: push-out along the normal and damped reflection. -/
lemma collideCell_fires (tm : TileMap) (cx cz : ℤ) (pos vel : Vector3)
    (i j : ℤ) (obs : Tile) (minDist dist nx nz dot : ℝ)
    (hobs : tm (cx + i) (cz + j) = some obs)
    (htype : obs.type = TileType.TREE ∨ obs.type = TileType.OBSTACLE)
    (hmd : minDist = (if obs.type = TileType.TREE then (0.35 : ℝ) else 0.45) + 0.15)
    (hlow : ¬ pos.y > obs.height + 3)
    (hpen : (pos.x - (obs.x : ℝ)) * (pos.x - (obs.x : ℝ)) +
      (pos.z - (obs.z : ℝ)) * (pos.z - (obs.z : ℝ)) < minDist * minDist)
    (hdist : dist = Real.sqrt ((pos.x - (obs.x : ℝ)) * (pos.x - (obs.x : ℝ)) +
      (pos.z - (obs.z : ℝ)) * (pos.z - (obs.z : ℝ))))
    (hnx : nx = if dist > 0 then (pos.x - (obs.x : ℝ)) / dist else 1)
    (hnz : nz = if dist > 0 then (pos.z - (obs.z : ℝ)) / dist else 0)
    (hdot : dot = vel.x * nx + vel.z * nz)
    (hinto : dot < 0) :
    collideCell tm cx cz (pos, vel) (i, j) =
      ((⟨pos.x + nx * ((minDist - dist) + 0.01), pos.y,
          pos.z + nz * ((minDist - dist) + 0.01)⟩ : Vector3),
        (⟨(vel.x - 2 * dot * nx) * 0.7 * 0.9, vel.y,
          (vel.z - 2 * dot * nz) * 0.7 * 0.9⟩ : Vector3)) := by
  simp only [collideCell, hobs]
  rw [if_pos htype, if_neg hlow, ← hmd, if_pos hpen, ← hdist, ← hnx, ← hnz,
    ← hdot, if_pos hinto]

/-- C8.  When a TREE/OBSTACLE collision fires (horizontal penetration of
the collider radius, ball not above obstacle height + 3) with the incoming
horizontal velocity moving into the obstacle (negative dot product with the
collision normal), the collision response's returned velocity component
along the normal has reversed sign, equal to `-(0.7 * 0.9)` times the
incoming component, hence of strictly smaller magnitude. -/
theorem obstacle_bounce (tm : TileMap) (cx cz : ℤ) (pos vel : Vector3)
    (i j : ℤ) (obs : Tile) (minDist dist nx nz dot : ℝ)
    (hobs : tm (cx + i) (cz + j) = some obs)
    (htype : obs.type = TileType.TREE ∨ obs.type = TileType.OBSTACLE)
    (hmd : minDist = (if obs.type = TileType.TREE then (0.35 : ℝ) else 0.45) + 0.15)
    (hlow : ¬ pos.y > obs.height + 3)
    (hpen : (pos.x - (obs.x : ℝ)) * (pos.x - (obs.x : ℝ)) +
      (pos.z - (obs.z : ℝ)) * (pos.z - (obs.z : ℝ)) < minDist * minDist)
    (hdist : dist = Real.sqrt ((pos.x - (obs.x : ℝ)) * (pos.x - (obs.x : ℝ)) +
      (pos.z - (obs.z : ℝ)) * (pos.z - (obs.z : ℝ))))
    (hnx : nx = if dist > 0 then (pos.x - (obs.x : ℝ)) / dist else 1)
    (hnz : nz = if dist > 0 then (pos.z - (obs.z : ℝ)) / dist else 0)
    (hdot : dot = vel.x * nx + vel.z * nz)
    (hinto : dot < 0) :
    (collideCell tm cx cz (pos, vel) (i, j)).2.x * nx +
        (collideCell tm cx cz (pos, vel) (i, j)).2.z * nz =
      -(0.7 * 0.9) * dot ∧
    0 < (collideCell tm cx cz (pos, vel) (i, j)).2.x * nx +
        (collideCell tm cx cz (pos, vel) (i, j)).2.z * nz ∧
    |(collideCell tm cx cz (pos, vel) (i, j)).2.x * nx +
        (collideCell tm cx cz (pos, vel) (i, j)).2.z * nz| < |dot| := by
  have hcell := collideCell_fires tm cx cz pos vel i j obs minDist dist nx nz
    dot hobs htype hmd hlow hpen hdist hnx hnz hdot hinto
  have hunit : nx * nx + nz * nz = 1 := by
    by_cases hd : dist > 0
    · rw [hnx, hnz, if_pos hd, if_pos hd]
      have hS : dist * dist = (pos.x - (obs.x : ℝ)) * (pos.x - (obs.x : ℝ)) +
          (pos.z - (obs.z : ℝ)) * (pos.z - (obs.z : ℝ)) := by
        rw [hdist]
        exact Real.mul_self_sqrt
          (add_nonneg (mul_self_nonneg _) (mul_self_nonneg _))
      field_simp
      linarith [hS]
    · rw [hnx, hnz, if_neg hd, if_neg hd]
      norm_num
  have hmain : (collideCell tm cx cz (pos, vel) (i, j)).2.x * nx +
      (collideCell tm cx cz (pos, vel) (i, j)).2.z * nz = -(0.7 * 0.9) * dot := by
    rw [hcell]
    simp only []
    rw [hdot]
    exact reflect_dot vel.x vel.z nx nz hunit
  refine ⟨hmain, ?_, ?_⟩
  · rw [hmain]
    nlinarith
  · rw [hmain, abs_mul, abs_of_neg hinto, show |(-(0.7 * 0.9) : ℝ)| = 0.63 by
      rw [abs_of_neg (by norm_num)]; norm_num]
    nlinarith

/-- C8 witness: a ball at `(0.4, 0.2, 0)` moving at `(-1, 0, 0)` into the
OBSTACLE tile at the origin; the normal is `(1, 0)` and the incoming
normal component `-1`. -/
theorem obstacle_bounce_witness :
    (collideCell (fun x z => if x = 0 ∧ z = 0 then
          some ⟨0, 0, 0, TileType.OBSTACLE⟩ else none) 0 0
        (⟨0.4, 0.2, 0⟩, ⟨-1, 0, 0⟩) (0, 0)).2.x * 1 +
      (collideCell (fun x z => if x = 0 ∧ z = 0 then
          some ⟨0, 0, 0, TileType.OBSTACLE⟩ else none) 0 0
        (⟨0.4, 0.2, 0⟩, ⟨-1, 0, 0⟩) (0, 0)).2.z * 0 =
      -(0.7 * 0.9) * (-1) ∧
    0 < (collideCell (fun x z => if x = 0 ∧ z = 0 then
          some ⟨0, 0, 0, TileType.OBSTACLE⟩ else none) 0 0
        (⟨0.4, 0.2, 0⟩, ⟨-1, 0, 0⟩) (0, 0)).2.x * 1 +
      (collideCell (fun x z => if x = 0 ∧ z = 0 then
          some ⟨0, 0, 0, TileType.OBSTACLE⟩ else none) 0 0
        (⟨0.4, 0.2, 0⟩, ⟨-1, 0, 0⟩) (0, 0)).2.z * 0 ∧
    |(collideCell (fun x z => if x = 0 ∧ z = 0 then
          some ⟨0, 0, 0, TileType.OBSTACLE⟩ else none) 0 0
        (⟨0.4, 0.2, 0⟩, ⟨-1, 0, 0⟩) (0, 0)).2.x * 1 +
      (collideCell (fun x z => if x = 0 ∧ z = 0 then
          some ⟨0, 0, 0, TileType.OBSTACLE⟩ else none) 0 0
        (⟨0.4, 0.2, 0⟩, ⟨-1, 0, 0⟩) (0, 0)).2.z * 0| < |(-1 : ℝ)| :=
  obstacle_bounce
    (fun x z => if x = 0 ∧ z = 0 then some ⟨0, 0, 0, TileType.OBSTACLE⟩ else none)
    0 0 ⟨0.4, 0.2, 0⟩ ⟨-1, 0, 0⟩ 0 0
    ⟨0, 0, 0, TileType.OBSTACLE⟩ 0.6 0.4 1 0 (-1)
    (by norm_num)
    (by simp)
    (by
      rw [if_neg (by simp)]
      norm_num)
    (by norm_num)
    (by norm_num)
    (by
      rw [show ((0.4 : ℝ) - ((0 : ℤ) : ℝ)) * (0.4 - ((0 : ℤ) : ℝ)) +
          ((0 : ℝ) - ((0 : ℤ) : ℝ)) * ((0 : ℝ) - ((0 : ℤ) : ℝ)) = 0.4 ^ 2 by
        norm_num]
      rw [Real.sqrt_sq (by norm_num : (0 : ℝ) ≤ 0.4)])
    (by norm_num)
    (by norm_num)
    (by norm_num)
    (by norm_num)

/-- An OBSTACLE tile at `(0, 0)` next to a WATER tile of height `1` at
`(1, 0)`. -/
def obstacleWaterMap : TileMap := fun x z =>
  if x = 0 ∧ z = 0 then some ⟨0, 0, 0, TileType.OBSTACLE⟩
  else if x = 1 ∧ z = 0 then some ⟨1, 0, 1, TileType.WATER⟩
  else none

/-- Every scan cell of `obstacleWaterMap` other than the obstacle's own is
a no-op. -/
lemma obstacleWaterMap_skip (ij : ℤ × ℤ) (hne : ¬ (ij.1 = 0 ∧ ij.2 = 0))
    (pv : Vector3 × Vector3) : collideCell obstacleWaterMap 0 0 pv ij = pv := by
  apply collideCell_no_obstacle
  intro t ht
  simp only [obstacleWaterMap] at ht
  split_ifs at ht with h1 h2
  · obtain ⟨ha, hb⟩ := h1
    exact absurd ⟨by omega, by omega⟩ hne
  · cases ht
    exact ⟨by simp, by simp⟩

/-- Folding the scan body over cells that are all no-ops is the identity. -/
lemma foldl_collideCell_noop (tm : TileMap) (cx cz : ℤ) :
    ∀ (l : List (ℤ × ℤ)),
      (∀ ij ∈ l, ∀ pv, collideCell tm cx cz pv ij = pv) →
      ∀ pv : Vector3 × Vector3, l.foldl (collideCell tm cx cz) pv = pv := by
  intro l
  induction l with
  | nil => intro _ pv; rfl
  | cons a t ih =>
    intro h pv
    rw [List.foldl_cons, h a (List.mem_cons_self a t),
      ih (fun ij hij pv => h ij (List.mem_cons_of_mem a hij) pv)]

/-- C8 counterexample: in the step from `(1.4, 0.2, 0)` at velocity
`(-1, 0, 0)` over `obstacleWaterMap`, the obstacle collision fires (first
conjunct: the scan cell reflects the velocity to `(0.63, 0, 0)`, and the
incoming normal component is `-1 < 0`), but the stepped point then lands on
the WATER tile and the step returns velocity `(0, 0, 0)`, whose component
along the collision normal `(1, 0)` is not positive — the claim about the
returned velocity of the whole step fails. -/
theorem obstacle_bounce_step_cex :
    collideCell obstacleWaterMap 0 0 (⟨0.4, 0.2, 0⟩, ⟨-1, 0, 0⟩) (0, 0) =
      ((⟨0.61, 0.2, 0⟩ : Vector3), (⟨0.63, 0, 0⟩ : Vector3)) ∧
    (-1 : ℝ) * 1 + 0 * 0 < 0 ∧
    (calculateNextState ⟨1.4, 0.2, 0⟩ ⟨-1, 0, 0⟩ 1 cfg0 obstacleWaterMap).vel =
      ⟨0, 0, 0⟩ ∧
    ¬ (0 < (calculateNextState ⟨1.4, 0.2, 0⟩ ⟨-1, 0, 0⟩ 1 cfg0
          obstacleWaterMap).vel.x * 1 +
        (calculateNextState ⟨1.4, 0.2, 0⟩ ⟨-1, 0, 0⟩ 1 cfg0
          obstacleWaterMap).vel.z * 0) := by
  have hcell : collideCell obstacleWaterMap 0 0 (⟨0.4, 0.2, 0⟩, ⟨-1, 0, 0⟩)
      (0, 0) = ((⟨0.61, 0.2, 0⟩ : Vector3), (⟨0.63, 0, 0⟩ : Vector3)) := by
    rw [collideCell_fires obstacleWaterMap 0 0 ⟨0.4, 0.2, 0⟩ ⟨-1, 0, 0⟩ 0 0
      ⟨0, 0, 0, TileType.OBSTACLE⟩ 0.6 0.4 1 0 (-1)
      (by norm_num [obstacleWaterMap])
      (by simp)
      (by rw [if_neg (by simp)]; norm_num)
      (by norm_num)
      (by norm_num)
      (by
        rw [show ((0.4 : ℝ) - ((0 : ℤ) : ℝ)) * (0.4 - ((0 : ℤ) : ℝ)) +
            ((0 : ℝ) - ((0 : ℤ) : ℝ)) * ((0 : ℝ) - ((0 : ℤ) : ℝ)) = 0.4 ^ 2 by
          norm_num]
        rw [Real.sqrt_sq (by norm_num : (0 : ℝ) ≤ 0.4)])
      (by norm_num)
      (by norm_num)
      (by norm_num)
      (by norm_num)]
    norm_num
  have hint : integrate ⟨1.4, 0.2, 0⟩ ⟨-1, 0, 0⟩ 1 cfg0 =
      ((⟨0.4, 0.2, 0⟩ : Vector3), (⟨-1, 0, 0⟩ : Vector3)) := by
    norm_num [integrate, addVectors, scaleVector, cfg0]
  have hL1 : ∀ ij ∈ [((-2 : ℤ), (-2 : ℤ)), (-2, -1), (-2, 0), (-2, 1), (-2, 2),
      (-1, -2), (-1, -1), (-1, 0), (-1, 1), (-1, 2), (0, -2), (0, -1)],
      ∀ pv : Vector3 × Vector3, collideCell obstacleWaterMap 0 0 pv ij = pv := by
    intro ij hij pv
    refine obstacleWaterMap_skip ij ?_ pv
    fin_cases hij <;> decide
  have hL2 : ∀ ij ∈ [((0 : ℤ), (1 : ℤ)), (0, 2), (1, -2), (1, -1), (1, 0),
      (1, 1), (1, 2), (2, -2), (2, -1), (2, 0), (2, 1), (2, 2)],
      ∀ pv : Vector3 × Vector3, collideCell obstacleWaterMap 0 0 pv ij = pv := by
    intro ij hij pv
    refine obstacleWaterMap_skip ij ?_ pv
    fin_cases hij <;> decide
  have hfold : collidePhase obstacleWaterMap (⟨0.4, 0.2, 0⟩, ⟨-1, 0, 0⟩) =
      ((⟨0.61, 0.2, 0⟩ : Vector3), (⟨0.63, 0, 0⟩ : Vector3)) := by
    simp only [collidePhase]
    rw [show round ((0.4 : ℝ)) = 0 by norm_num [round_eq],
      show round ((0 : ℝ)) = 0 from round_zero]
    rw [show checkOffsets =
      [((-2 : ℤ), (-2 : ℤ)), (-2, -1), (-2, 0), (-2, 1), (-2, 2),
       (-1, -2), (-1, -1), (-1, 0), (-1, 1), (-1, 2), (0, -2), (0, -1)] ++
      ((0, 0) ::
       [((0 : ℤ), (1 : ℤ)), (0, 2), (1, -2), (1, -1), (1, 0),
        (1, 1), (1, 2), (2, -2), (2, -1), (2, 0), (2, 1), (2, 2)]) from rfl]
    rw [List.foldl_append,
      foldl_collideCell_noop obstacleWaterMap 0 0 _ hL1,
      List.foldl_cons, hcell,
      foldl_collideCell_noop obstacleWaterMap 0 0 _ hL2]
  have hstep : calculateNextState ⟨1.4, 0.2, 0⟩ ⟨-1, 0, 0⟩ 1 cfg0
      obstacleWaterMap =
      { pos := ⟨0.61, 1, 0⟩, vel := ⟨0, 0, 0⟩, collision := some "WATER" } := by
    rw [calculateNextState, hint, hfold]
    simp only [groundPhase]
    rw [show obstacleWaterMap (round ((0.61 : ℝ))) (round ((0 : ℝ))) =
      some ⟨1, 0, 1, TileType.WATER⟩ by norm_num [obstacleWaterMap, round_eq]]
    simp only [stepFloorHeight]
    rw [if_pos (by norm_num),
      if_pos (show Option.map Tile.type (some ⟨1, 0, 1, TileType.WATER⟩) =
        some TileType.WATER from rfl)]
  refine ⟨hcell, by norm_num, ?_, ?_⟩
  · rw [hstep]
  · rw [hstep]
    norm_num

/-! ## C9: maxVelocity has no effect -/

/-- Two configurations equal in every field except `maxVelocity` give the
same physics step. -/
lemma calculateNextState_maxVelocity (g d f1 f2 f3 f4 f5 r m m' s : ℝ)
    (pos vel : Vector3) (dt : ℝ) (tm : TileMap) :
    calculateNextState pos vel dt ⟨g, d, f1, f2, f3, f4, f5, r, m, s⟩ tm =
      calculateNextState pos vel dt ⟨g, d, f1, f2, f3, f4, f5, r, m', s⟩ tm :=
  rfl

/-- Two configurations equal in every field except `maxVelocity` give the
same sub-step. -/
lemma subStep_maxVelocity (g d f1 f2 f3 f4 f5 r m m' s : ℝ) (tm : TileMap)
    (hole : Vector3) (dt : ℝ) (b : BallState) :
    subStep tm hole ⟨g, d, f1, f2, f3, f4, f5, r, m, s⟩ dt b =
      subStep tm hole ⟨g, d, f1, f2, f3, f4, f5, r, m', s⟩ dt b :=
  rfl

/-- Two configurations equal in every field except `maxVelocity` give the
same sub-step loop. -/
lemma runSubSteps_maxVelocity (g d f1 f2 f3 f4 f5 r m m' s : ℝ) (tm : TileMap)
    (hole : Vector3) (dt : ℝ) :
    ∀ (n : ℕ) (b : BallState),
      runSubSteps tm hole ⟨g, d, f1, f2, f3, f4, f5, r, m, s⟩ dt n b =
        runSubSteps tm hole ⟨g, d, f1, f2, f3, f4, f5, r, m', s⟩ dt n b := by
  intro n
  induction n with
  | zero => intro b; rfl
  | succ n ih =>
    intro b
    simp only [runSubSteps]
    rw [subStep_maxVelocity g d f1 f2 f3 f4 f5 r m m' s tm hole dt b, ih]

/-- Two configurations equal in every field except `maxVelocity` give the
same prediction loop. -/
lemma predictAux_maxVelocity (g d f1 f2 f3 f4 f5 r m m' s : ℝ) (dt : ℝ)
    (tm : TileMap) :
    ∀ (fuel i : ℕ) (pos vel : Vector3),
      predictAux ⟨g, d, f1, f2, f3, f4, f5, r, m, s⟩ dt tm fuel i pos vel =
        predictAux ⟨g, d, f1, f2, f3, f4, f5, r, m', s⟩ dt tm fuel i pos vel := by
  intro fuel
  induction fuel with
  | zero => intro i pos vel; rfl
  | succ n ih =>
    intro i pos vel
    simp only [predictAux]
    rw [calculateNextState_maxVelocity g d f1 f2 f3 f4 f5 r m m' s pos vel dt tm,
      ih]

/-- C9.  For any two configurations that differ only in `maxVelocity`, the
physics step, the trajectory predictor and the per-frame sub-step loop
return identical results on every input: no operation of the core reads
`maxVelocity`. -/
theorem maxVelocity_no_effect (c c' : PhysicsConfig)
    (hg : c.gravity = c'.gravity) (hd : c.dragAir = c'.dragAir)
    (hf1 : c.frictionGround = c'.frictionGround)
    (hf2 : c.frictionSand = c'.frictionSand)
    (hf3 : c.frictionGreen = c'.frictionGreen)
    (hf4 : c.frictionGravel = c'.frictionGravel)
    (hf5 : c.frictionRough = c'.frictionRough)
    (hr : c.restitution = c'.restitution)
    (hs : c.minVelocityToStop = c'.minVelocityToStop)
    (pos vel : Vector3) (dt : ℝ) (tm : TileMap) (tiles : List Tile)
    (steps n : ℕ) (hole : Vector3) (b : BallState) :
    calculateNextState pos vel dt c tm = calculateNextState pos vel dt c' tm ∧
    predictTrajectory pos vel c tiles steps dt =
      predictTrajectory pos vel c' tiles steps dt ∧
    runSubSteps tm hole c dt n b = runSubSteps tm hole c' dt n b := by
  obtain ⟨g, d, f1, f2, f3, f4, f5, r, m, s⟩ := c
  obtain ⟨g', d', f1', f2', f3', f4', f5', r', m', s'⟩ := c'
  simp only at hg hd hf1 hf2 hf3 hf4 hf5 hr hs
  subst hg hd hf1 hf2 hf3 hf4 hf5 hr hs
  refine ⟨calculateNextState_maxVelocity g d f1 f2 f3 f4 f5 r m m' s pos vel dt tm,
    ?_, runSubSteps_maxVelocity g d f1 f2 f3 f4 f5 r m m' s tm hole dt n b⟩
  rw [predictTrajectory, predictTrajectory,
    predictAux_maxVelocity g d f1 f2 f3 f4 f5 r m m' s dt (buildTileMap tiles)
      steps 0 pos vel]

/-- C9 witness: the game's configuration against a copy with
`maxVelocity = 0`, on a concrete input. -/
theorem maxVelocity_no_effect_witness :
    calculateNextState ⟨0, 1, 0⟩ ⟨0, 0, 0⟩ 0 PHYSICS_CONFIG emptyTileMap =
      calculateNextState ⟨0, 1, 0⟩ ⟨0, 0, 0⟩ 0
        ⟨35.0, 0.8, 0.4, 8.0, 0.15, 5.0, 0.8, 0.4, 0, 0.2⟩ emptyTileMap ∧
    predictTrajectory ⟨0, 1, 0⟩ ⟨0, 0, 0⟩ PHYSICS_CONFIG [] 3 0 =
      predictTrajectory ⟨0, 1, 0⟩ ⟨0, 0, 0⟩
        ⟨35.0, 0.8, 0.4, 8.0, 0.15, 5.0, 0.8, 0.4, 0, 0.2⟩ [] 3 0 ∧
    runSubSteps emptyTileMap ⟨9, 0, 0⟩ PHYSICS_CONFIG 0 8 (initialBall ⟨0, 1, 0⟩) =
      runSubSteps emptyTileMap ⟨9, 0, 0⟩
        ⟨35.0, 0.8, 0.4, 8.0, 0.15, 5.0, 0.8, 0.4, 0, 0.2⟩ 0 8
        (initialBall ⟨0, 1, 0⟩) :=
  maxVelocity_no_effect PHYSICS_CONFIG
    ⟨35.0, 0.8, 0.4, 8.0, 0.15, 5.0, 0.8, 0.4, 0, 0.2⟩
    rfl rfl rfl rfl rfl rfl rfl rfl rfl
    ⟨0, 1, 0⟩ ⟨0, 0, 0⟩ 0 emptyTileMap [] 3 8 ⟨9, 0, 0⟩ (initialBall ⟨0, 1, 0⟩)

/-! ## C10: rest detection over absent tiles -/

/-- C10.  The shot loop's rest check reads the floor of an absent tile as
`0` (not the stepper's `-10` sentinel), so a ball with speed below
`minVelocityToStop` and `|y| < 0.1` over an absent tile is declared at
rest: `isMoving` becomes false and the velocity is zeroed. -/
theorem rest_over_absent_tile (tm : TileMap) (hole : Vector3)
    (config : PhysicsConfig) (subDt : ℝ) (s : BallState) (r : StepResult)
    (hm : s.isMoving = true) (hy : ¬ s.position.y < -10)
    (hr : calculateNextState s.position s.velocity subDt config tm = r)
    (hw : r.collision ≠ some "WATER")
    (htile : tm (round r.pos.x) (round r.pos.z) = none)
    (hspeed : magnitude r.vel < config.minVelocityToStop)
    (hy2 : |r.pos.y| < 0.1) :
    loopFloorHeight none = 0 ∧
    stepFloorHeight none = -10 ∧
    (subStep tm hole config subDt s).1.isMoving = false ∧
    (subStep tm hole config subDt s).1.velocity = ⟨0, 0, 0⟩ := by
  refine ⟨rfl, rfl, ?_, ?_⟩ <;>
  · simp only [subStep]
    rw [if_neg (by simp [hm]), if_neg hy, hr, if_neg hw, htile]
    have hcond : magnitude r.vel < config.minVelocityToStop ∧
        |r.pos.y - loopFloorHeight none| < 0.1 :=
      ⟨hspeed, by simpa [loopFloorHeight] using hy2⟩
    simp [hcond]

/-- A configuration whose only nonzero field is `minVelocityToStop = 1`. -/
def cfgRest : PhysicsConfig :=
  ⟨0, 0, 0, 0, 0, 0, 0, 0, 0, 1⟩

/-- C10 witness: a slow ball hovering at `y = 0.05` over the empty map is
declared at rest even though the stepper's floor there is `-10`. -/
theorem rest_over_absent_tile_witness :
    loopFloorHeight none = 0 ∧
    stepFloorHeight none = -10 ∧
    (subStep emptyTileMap ⟨3, 0, 0⟩ cfgRest 0
      { position := ⟨0, 0.05, 0⟩, velocity := ⟨0, 0, 0⟩, isMoving := true,
        inHole := false, lastStablePosition := ⟨0, 0, 0⟩ }).1.isMoving = false ∧
    (subStep emptyTileMap ⟨3, 0, 0⟩ cfgRest 0
      { position := ⟨0, 0.05, 0⟩, velocity := ⟨0, 0, 0⟩, isMoving := true,
        inHole := false, lastStablePosition := ⟨0, 0, 0⟩ }).1.velocity =
      ⟨0, 0, 0⟩ := by
  have hint : integrate ⟨0, 0.05, 0⟩ ⟨0, 0, 0⟩ 0 cfgRest =
      ((⟨0, 0.05, 0⟩ : Vector3), (⟨0, 0, 0⟩ : Vector3)) := by
    norm_num [integrate, addVectors, scaleVector, cfgRest]
  have hr : calculateNextState ⟨0, 0.05, 0⟩ ⟨0, 0, 0⟩ 0 cfgRest emptyTileMap =
      { pos := ⟨0, 0.05, 0⟩, vel := ⟨0, 0, 0⟩, collision := none } := by
    rw [calculateNextState, hint,
      collidePhase_no_obstacle emptyTileMap
        (by intro x z t ht; simp [emptyTileMap] at ht)]
    simp only [groundPhase]
    rw [if_neg (by norm_num [emptyTileMap, stepFloorHeight])]
  exact rest_over_absent_tile emptyTileMap ⟨3, 0, 0⟩ cfgRest 0
    { position := ⟨0, 0.05, 0⟩, velocity := ⟨0, 0, 0⟩, isMoving := true,
      inHole := false, lastStablePosition := ⟨0, 0, 0⟩ }
    { pos := ⟨0, 0.05, 0⟩, vel := ⟨0, 0, 0⟩, collision := none }
    rfl (by norm_num) hr (by simp)
    (by simp [emptyTileMap])
    (by
      rw [magnitude_eq _ 0 (by norm_num) (by norm_num)]
      norm_num [cfgRest])
    (by norm_num [abs_lt])

end Golf
